import Mathlib

/-!
Verification of the modbus exporter scrape pipeline (`src/modbus/modbus.go`).

The development shallowly embeds the Go source: byte buffers become `List Nat`
(each element a byte value `< 256`), Go's `(value, error)` returns become
explicit result inductives, a Go `panic` becomes a distinguished `panicked`
outcome, and Go map references (`map[string]string` values held by metric
definitions) become indices into an explicit heap of label maps so that
aliasing and in-place mutation are observable.

Types that live in the external `config` package (not part of the sources)
are modelled from the specification: the wire data type enumeration, the
metric kind, and the shape of a metric definition.
-/

set_option autoImplicit false

namespace ModbusExporter

/-- Go `map[string]string` label maps, as association lists; Go map
assignment updates an existing key in place or appends a new one. -/
abbrev LabelMap := List (String × String)

/-- Go map assignment `m[k] = v`: replace the binding of `k` if present,
otherwise add it. -/
def labelInsert (m : LabelMap) (k v : String) : LabelMap :=
  match m with
  | [] => [(k, v)]
  | (k', v') :: rest => if k' = k then (k, v) :: rest else (k', v') :: labelInsert rest k v

/-- Go `keys` (modbus.go line 159): the key set of a label map. The Go
version iterates the map in unspecified order; all uses below compare key
sets order-insensitively, so insertion order is a sound representative. -/
def keys (m : LabelMap) : List String := m.map Prod.fst

/-- Modelled from the spec: the wire data type enumeration of the external
`config` package (spec section 3: 16-bit float, 32-bit float, signed 16-bit
int, signed 32-bit int, unsigned 16-bit int, boolean). The enumeration is
closed, so the Go decoder's `default: unknown modbus data type` branch is
unreachable and is not represented. -/
inductive DataType
  | float16
  | float32
  | int16
  | int32
  | uint16
  | bool
deriving DecidableEq, Repr

/-- Modelled from the spec: the metric kind of the external `config`
package (gauge or counter). -/
inductive MetricType
  | gauge
  | counter
deriving DecidableEq, Repr

/-- Modelled from the spec: a metric definition record of the external
`config` package (spec section 3). `labelsRef` is the definition's label
map field: a Go map is a reference, modelled as an index into a heap of
`LabelMap` cells (`none` models a nil map). The address is the numeric
protocol address and the bit offset is the optional bit position used by
boolean decoding. -/
structure MetricDef where
  name : String
  help : String
  labelsRef : Option Nat
  address : Nat
  dataType : DataType
  bitOffset : Option Nat
  metricType : MetricType
deriving DecidableEq, Repr

/-- A decoded float64 value. All decode branches except Float32 produce an
exact integer widened to float64 (exactly representable, magnitudes are
below 2^32), kept as the integer; the Float32 branch produces
`math.Float32frombits` of a 32-bit pattern, kept as the pattern. -/
inductive ModbusValue
  | int (i : ℤ)
  | f32bits (b : ℕ)
deriving DecidableEq, Repr

/-- Go float64 comparison `v < 0` on a decoded value. A float32 pattern is
negative exactly when its sign bit is set and it is neither negative zero
nor a NaN (exponent and mantissa not beyond `0x7F800000`). -/
def valueIsNeg : ModbusValue → Bool
  | .int i => decide (i < 0)
  | .f32bits b => decide (2 ^ 31 < b ∧ b ≤ 2 ^ 31 + 0x7F800000)

/-- Go `binary.BigEndian.Uint16`: the first two bytes as a big-endian word;
`none` models the bounds-check panic on a shorter slice. -/
def uint16BE : List Nat → Option Nat
  | b0 :: b1 :: _ => some (b0 * 256 + b1)
  | _ => none

/-- Go `binary.BigEndian.Uint32`: the first four bytes as a big-endian
word; `none` models the bounds-check panic on a shorter slice. -/
def uint32BE : List Nat → Option Nat
  | b0 :: b1 :: b2 :: b3 :: _ => some (((b0 * 256 + b1) * 256 + b2) * 256 + b3)
  | _ => none

/-- Go `int16(i)` reinterpretation of a 16-bit word value. -/
def toInt16 (i : Nat) : ℤ :=
  if i < 32768 then (i : ℤ) else (i : ℤ) - 65536

/-- Decode errors of `parseModbusData`: the typed
`InsufficientRegistersError` (modbus.go line 237, carrying the expected
register count and the byte count received, as in its
`expected at least %v, got %v` message) and the
`expected bit position on boolean data type` configuration error. -/
inductive PError
  | insufficientRegisters (expected got : Nat)
  | missingBitOffset
deriving DecidableEq, Repr

/-- Result of `parseModbusData`: a value, a normal error return, or a Go
panic (`panicked`), which aborts rather than returns. -/
inductive PResult
  | ok (v : ModbusValue)
  | err (e : PError)
  | panicked (msg : String)
deriving DecidableEq, Repr

/-- Go `parseModbusData` (modbus.go line 250), branch by branch:
* Float16: length check, then `panic("implement")`;
* Float32: length check, then the first 4 bytes as a big-endian float32 bit
  pattern;
* Int16: length check, then `int16(binary.BigEndian.Uint16(rawData))`;
* Int32: length check against 4 bytes, then `binary.BigEndian.Uint16`
  (only 2 bytes are read, unsigned — as in the source);
* UInt16: length check against 2 bytes, then `binary.BigEndian.Uint32`
  (4 bytes are read, panicking on a 2- or 3-byte buffer — as in the
  source);
* Bool: length check, nil check of the bit offset, then
  `data & (uint16(1) << uint16(*d.BitOffset)) > 0`; the shift operand
  conversion `uint16(...)` is `% 65536` and the uint16 shift result is
  truncated `% 65536`. -/
def parseModbusData (d : MetricDef) (rawData : List Nat) : PResult :=
  match d.dataType with
  | .float16 =>
      if rawData.length < 2 then .err (.insufficientRegisters 1 rawData.length)
      else .panicked "implement"
  | .float32 =>
      if rawData.length < 4 then .err (.insufficientRegisters 2 rawData.length)
      else
        match uint32BE rawData with
        | some u => .ok (.f32bits u)
        | none => .panicked "index out of range"
  | .int16 =>
      if rawData.length < 2 then .err (.insufficientRegisters 1 rawData.length)
      else
        match uint16BE rawData with
        | some u => .ok (.int (toInt16 u))
        | none => .panicked "index out of range"
  | .int32 =>
      if rawData.length < 4 then .err (.insufficientRegisters 2 rawData.length)
      else
        match uint16BE rawData with
        | some u => .ok (.int u)
        | none => .panicked "index out of range"
  | .uint16 =>
      if rawData.length < 2 then .err (.insufficientRegisters 1 rawData.length)
      else
        match uint32BE rawData with
        | some u => .ok (.int u)
        | none => .panicked "index out of range"
  | .bool =>
      if rawData.length < 2 then .err (.insufficientRegisters 1 rawData.length)
      else
        match d.bitOffset with
        | none => .err .missingBitOffset
        | some off =>
            match uint16BE rawData with
            | some data =>
                if data &&& ((1 <<< (off % 65536)) % 65536) > 0 then .ok (.int 1)
                else .ok (.int 0)
            | none => .panicked "index out of range"

/-- Minimum byte length each data type's length check requires
(modbus.go lines 253, 258, 264, 271, 278, 287). -/
def minBytes : DataType → Nat
  | .float16 => 2
  | .float32 => 4
  | .int16 => 2
  | .int32 => 4
  | .uint16 => 2
  | .bool => 2

/-- Whether a decode result is the typed insufficient-registers error. -/
def isInsufficient : PResult → Bool
  | .err (.insufficientRegisters _ _) => true
  | _ => false

/-- A convenient concrete definition with a given data type and bit
offset; the remaining fields are irrelevant to decoding. -/
def defWith (t : DataType) (off : Option Nat) : MetricDef :=
  { name := "m", help := "h", labelsRef := none, address := 40001,
    dataType := t, bitOffset := off, metricType := .gauge }

/-- Go `metric` struct, assembled once per scrape per definition
(modelled from the spec's AssembledMetric record; the struct itself lives
in a package file outside the given sources, its field order is fixed by
the positional literal in `scrapeMetric`, modbus.go line 232): name, help,
label map reference, decoded value, metric kind. The label map reference
is the definition's — Go copies the map reference, not the map. -/
structure metric where
  name : String
  help : String
  labelsRef : Option Nat
  value : ModbusValue
  metricType : MetricType
deriving DecidableEq, Repr

/-- An error from inside `scrapeMetric`: a read error from the protocol
client or a decode error from `parseModbusData`. -/
inductive InnerError
  | readErr (msg : String)
  | parseErr (e : PError)
deriving DecidableEq, Repr

/-- Result of `scrapeMetric`: an assembled metric, a normal error return
(Go returns the pair `(metric{}, err)`; the zero metric is never used), or
a propagated decode panic. -/
inductive SMResult
  | ok (m : metric)
  | err (e : InnerError)
  | panicked (msg : String)
deriving DecidableEq, Repr

/-- The protocol client capability: the four register read operations
(`(address, quantity) -> (bytes, error)`) used by the dispatcher. -/
structure Client where
  readCoils : Nat → Nat → Except String (List Nat)
  readDiscreteInputs : Nat → Nat → Except String (List Nat)
  readInputRegisters : Nat → Nat → Except String (List Nat)
  readHoldingRegisters : Nat → Nat → Except String (List Nat)

/-- Go `scrapeMetric` (modbus.go line 211): read 2 registers at
`definition.Address % 10000` (the `uint16` conversion is the identity
there, the remainder is below `10000`), decode the returned bytes, and
assemble the metric from the definition's fields and the decoded value. -/
def scrapeMetric (definition : MetricDef) (f : Nat → Nat → Except String (List Nat)) :
    SMResult :=
  match f (definition.address % 10000) 2 with
  | .error e => .err (.readErr e)
  | .ok modBytes =>
      match parseModbusData definition modBytes with
      | .err e => .err (.parseErr e)
      | .panicked msg => .panicked msg
      | .ok v =>
          .ok { name := definition.name, help := definition.help,
                labelsRef := definition.labelsRef, value := v,
                metricType := definition.metricType }

/-- Errors of `scrapeMetrics`, keeping the data interpolated into the Go
error strings: the address-range error (modbus.go line 188, naming the
metric and address) and the per-metric wrapper (line 198, naming the
metric and address and carrying the inner error). -/
inductive SError
  | addressRange (name : String) (address : Nat)
  | metricFailure (name : String) (address : Nat) (inner : InnerError)
deriving DecidableEq, Repr

/-- The metric name interpolated into a `scrapeMetrics` error. -/
def SError.errName : SError → String
  | .addressRange n _ => n
  | .metricFailure n _ _ => n

/-- The metric address interpolated into a `scrapeMetrics` error. -/
def SError.errAddress : SError → Nat
  | .addressRange _ a => a
  | .metricFailure _ a _ => a

/-- Result of `scrapeMetrics`. The `err` constructor stands for the Go
return `([]metric{}, err)`: an error is always returned together with the
empty metric slice. `panicked` is a propagated decode panic, which
returns nothing at all. -/
inductive ScrapeOutcome
  | ok (ms : List metric)
  | err (e : SError)
  | panicked (msg : String)
deriving DecidableEq, Repr

/-- The metric slice a `scrapeMetrics` return carries: the collection on
success, the empty slice alongside an error, nothing on a panic. -/
def returnedMetrics : ScrapeOutcome → List metric
  | .ok ms => ms
  | .err _ => []
  | .panicked _ => []

/-- The `switch definition.Address / 10000` of `scrapeMetrics`
(modbus.go line 178): ten-thousands digit 0 selects the coil read, 1 the
discrete-input read, 3 the input-register read, 4 the holding-register
read; any other digit has no read function (the `default` branch). -/
def dispatchF (c : Client) (address : Nat) :
    Option (Nat → Nat → Except String (List Nat)) :=
  match address / 10000 with
  | 0 => some c.readCoils
  | 1 => some c.readDiscreteInputs
  | 3 => some c.readInputRegisters
  | 4 => some c.readHoldingRegisters
  | _ => none

/-- The loop body of Go `scrapeMetrics` (modbus.go line 175), with the
accumulated metrics slice explicit: dispatch on the address digit (the
`default` branch returns the address-range error with the empty slice),
scrape the metric (an error returns the wrapped error with the empty
slice, a panic propagates), and append the assembled metric. -/
def scrapeMetricsGo (c : Client) : List MetricDef → List metric → ScrapeOutcome
  | [], metrics => .ok metrics
  | definition :: rest, metrics =>
      match dispatchF c definition.address with
      | none => .err (.addressRange definition.name definition.address)
      | some f =>
          match scrapeMetric definition f with
          | .err e => .err (.metricFailure definition.name definition.address e)
          | .panicked msg => .panicked msg
          | .ok m => scrapeMetricsGo c rest (metrics ++ [m])

/-- Go `scrapeMetrics` (modbus.go line 168): empty definition list short
path, then the loop over the definitions with an initially empty slice. -/
def scrapeMetrics (definitions : List MetricDef) (c : Client) : ScrapeOutcome :=
  if definitions.length = 0 then .ok []
  else scrapeMetricsGo c definitions []

/-- A client whose four read operations fail with an error recording
which operation was invoked and at which resolved address: reads are
observable through the returned error. -/
def probeClient : Client :=
  { readCoils := fun a _ => .error ("coils " ++ toString a),
    readDiscreteInputs := fun a _ => .error ("discrete " ++ toString a),
    readInputRegisters := fun a _ => .error ("input " ++ toString a),
    readHoldingRegisters := fun a _ => .error ("holding " ++ toString a) }

/-- A client whose four read operations all return the given bytes. -/
def constClient (bytes : List Nat) : Client :=
  { readCoils := fun _ _ => .ok bytes,
    readDiscreteInputs := fun _ _ => .ok bytes,
    readInputRegisters := fun _ _ => .ok bytes,
    readHoldingRegisters := fun _ _ => .ok bytes }

/-- A concrete metric definition at a given address (Int16, gauge, no
labels); only the address matters to dispatch. -/
def defAt (a : Nat) : MetricDef :=
  { name := "m", help := "h", labelsRef := none, address := a,
    dataType := .int16, bitOffset := none, metricType := .gauge }

/-- Two Int16 gauge definitions, at a coil address and an input-register
address. -/
def c5defs : List MetricDef := [defAt 3, defAt 30002]

/-- The client returning the register bytes `00 05` everywhere. -/
def c5client : Client := constClient [0, 5]

/-- The metrics a scrape of `c5defs` against `c5client` assembles. -/
def c5ms : List metric :=
  [{ name := "m", help := "h", labelsRef := none, value := .int 5, metricType := .gauge },
   { name := "m", help := "h", labelsRef := none, value := .int 5, metricType := .gauge }]

/-- A prometheus collector as far as this adapter observes it: its name,
help, label schema (the key set it was created with), and the
chronological list of applications (`Set` for gauges, `Add` for counters)
it received, each with the label values and the applied value. -/
structure Collector where
  name : String
  help : String
  schema : List String
  apps : List (LabelMap × ModbusValue)
deriving DecidableEq, Repr

/-- State threaded through `registerMetrics`: the label-map heap, the two
scrape-local lookup tables `registeredGauges` and `registeredCounters`
(modbus.go lines 85 and 86), the descriptors held by the prometheus
registry (name and label schema; `reg.Register` fails on a name already
present), and the chronological list of successful `reg.Register` calls
with the collector kind. -/
structure RegState where
  heap : List LabelMap
  registeredGauges : List (String × Collector)
  registeredCounters : List (String × Collector)
  registryDescs : List (String × List String)
  regEvents : List (String × MetricType)
deriving DecidableEq, Repr

/-- Order-insensitive equality of label key sets: prometheus matches the
labels passed to `With` against the collector's label names as a set (the
Go `keys` helper enumerates a map in unspecified order). -/
def sameKeySet (a b : List String) : Bool :=
  a.all (fun k => b.contains k) && b.all (fun k => a.contains k)

/-- Whether the registry already holds a descriptor with the given
fully-qualified name; `reg.Register` of a fresh collector fails exactly
then (with either the already-registered or the inconsistent-descriptor
error — `registerMetrics` treats every `Register` error alike). -/
def hasDesc (descs : List (String × List String)) (n : String) : Bool :=
  descs.any (fun p => p.1 == n)

/-- Replace the collector stored under a name (Go map update of a present
key). -/
def updateAssoc (t : List (String × Collector)) (n : String) (c : Collector) :
    List (String × Collector) :=
  match t with
  | [] => []
  | (k, v) :: rest => if k == n then (k, c) :: rest else (k, v) :: updateAssoc rest n c

/-- Lines 89-92 of modbus.go: a nil label map is replaced by a fresh empty
map (unaliased, so no heap cell is needed for it), then
`m.Labels["module"] = moduleName` writes through the map reference —
for a non-nil map this mutates the heap cell the metric definition also
references. Returns the updated heap and the label map value now
visible through the reference. -/
def resolveLabels (h : List LabelMap) (ref : Option Nat) (moduleName : String) :
    List LabelMap × LabelMap :=
  match ref with
  | none => (h, [("module", moduleName)])
  | some r =>
      let cell := labelInsert (h.getD r []) "module" moduleName
      (h.set r cell, cell)

/-- Errors of `registerMetrics`: the wrap of a failed `reg.Register`
(modbus.go line 106, naming the metric) and the wrap of a recovered
counter panic (line 147, naming the metric name, kind, value and
labels). -/
inductive RegError
  | registerFailed (name : String)
  | counterValue (name : String) (metricType : MetricType) (value : ModbusValue)
      (labels : LabelMap)
deriving DecidableEq, Repr

/-- Result of `registerMetrics`: the final state on success, a normal
error return, or an unrecovered panic (only the gauge `With` call can
panic outside a `recover`). -/
inductive RegOutcome
  | ok (s : RegState)
  | err (e : RegError)
  | panicked (msg : String)
deriving DecidableEq, Repr

/-- One loop iteration's effect: continue with the next state, or stop
the whole registration with an outcome. -/
inductive StepResult
  | cont (s : RegState)
  | stop (o : RegOutcome)
deriving DecidableEq, Repr

/-- A collector after one more application (`Set` or `Add`) with the
given label values and value. -/
def appliedCollector (collector : Collector) (mLabels : LabelMap) (v : ModbusValue) :
    Collector :=
  { collector with apps := collector.apps ++ [(mLabels, v)] }

/-- The collector a metric lazily creates: named after the metric, with
the metric's (module-injected) label keys as schema, and holding the one
application it receives right after creation. -/
def freshCollector (m : metric) (mLabels : LabelMap) : Collector :=
  { name := m.name, help := m.help, schema := keys mLabels,
    apps := [(mLabels, m.value)] }

/-- One iteration of the `registerMetrics` loop (modbus.go lines 88-152)
for one assembled metric: inject the module label through the map
reference (`resolveLabels`, whose pure call is repeated here rather than
bound, with identical value); then for a gauge, look up or lazily
create-and-register the collector and `With(...).Set(...)` — a
label-schema mismatch in `With` panics unrecovered; for a counter, the
same lookup/creation followed by `With(...).Add(...)` inside the
`recover` wrapper, which converts both a `With` mismatch panic and the
negative-value `Add` panic of the prometheus library into the error
naming the metric name, kind, value and labels. A failed `reg.Register`
returns its wrapped error in either branch. (In the stopping branches
the mutated heap and any fresh registration are discarded along with the
state, as Go's error return discards the registry.) -/
def registerOne (moduleName : String) (m : metric) (s : RegState) : StepResult :=
  match m.metricType with
  | .gauge =>
      match s.registeredGauges.lookup m.name with
      | some collector =>
          if sameKeySet (keys (resolveLabels s.heap m.labelsRef moduleName).2)
              collector.schema then
            .cont { s with
              heap := (resolveLabels s.heap m.labelsRef moduleName).1,
              registeredGauges := updateAssoc s.registeredGauges m.name
                (appliedCollector collector
                  (resolveLabels s.heap m.labelsRef moduleName).2 m.value) }
          else .stop (.panicked "inconsistent label cardinality")
      | none =>
          if hasDesc s.registryDescs m.name then .stop (.err (.registerFailed m.name))
          else
            .cont { s with
              heap := (resolveLabels s.heap m.labelsRef moduleName).1,
              registryDescs := s.registryDescs ++
                [(m.name, keys (resolveLabels s.heap m.labelsRef moduleName).2)],
              regEvents := s.regEvents ++ [(m.name, MetricType.gauge)],
              registeredGauges := s.registeredGauges ++
                [(m.name, freshCollector m (resolveLabels s.heap m.labelsRef moduleName).2)] }
  | .counter =>
      match s.registeredCounters.lookup m.name with
      | some collector =>
          if sameKeySet (keys (resolveLabels s.heap m.labelsRef moduleName).2)
              collector.schema then
            if valueIsNeg m.value then
              .stop (.err (.counterValue m.name m.metricType m.value
                (resolveLabels s.heap m.labelsRef moduleName).2))
            else
              .cont { s with
                heap := (resolveLabels s.heap m.labelsRef moduleName).1,
                registeredCounters := updateAssoc s.registeredCounters m.name
                  (appliedCollector collector
                    (resolveLabels s.heap m.labelsRef moduleName).2 m.value) }
          else .stop (.err (.counterValue m.name m.metricType m.value
            (resolveLabels s.heap m.labelsRef moduleName).2))
      | none =>
          if hasDesc s.registryDescs m.name then .stop (.err (.registerFailed m.name))
          else
            if valueIsNeg m.value then
              .stop (.err (.counterValue m.name m.metricType m.value
                (resolveLabels s.heap m.labelsRef moduleName).2))
            else
              .cont { s with
                heap := (resolveLabels s.heap m.labelsRef moduleName).1,
                registryDescs := s.registryDescs ++
                  [(m.name, keys (resolveLabels s.heap m.labelsRef moduleName).2)],
                regEvents := s.regEvents ++ [(m.name, MetricType.counter)],
                registeredCounters := s.registeredCounters ++
                  [(m.name, freshCollector m (resolveLabels s.heap m.labelsRef moduleName).2)] }

/-- The loop of Go `registerMetrics` (modbus.go line 88): fold
`registerOne` over the metrics, stopping at the first error or panic;
a completed loop returns the final state (Go returns `nil`). -/
def registerMetricsGo (moduleName : String) : List metric → RegState → RegOutcome
  | [], s => .ok s
  | m :: rest, s =>
      match registerOne moduleName m s with
      | .stop o => o
      | .cont s' => registerMetricsGo moduleName rest s'

/-- Go `registerMetrics` (modbus.go line 84): run the loop with initially
empty lookup tables against a fresh registry, over the given label-map
heap. -/
def registerMetrics (moduleName : String) (metrics : List metric)
    (heap : List LabelMap) : RegOutcome :=
  registerMetricsGo moduleName metrics
    { heap := heap, registeredGauges := [], registeredCounters := [],
      registryDescs := [], regEvents := [] }

/-- The conditions under which processing a counter metric reaches the
prometheus `Add` call with its labels accepted: its collector exists with
a matching label schema, or no descriptor blocks creating it. -/
def counterApplyReady (moduleName : String) (s : RegState) (m : metric) : Bool :=
  match s.registeredCounters.lookup m.name with
  | some c => sameKeySet (keys (resolveLabels s.heap m.labelsRef moduleName).2) c.schema
  | none => !(hasDesc s.registryDescs m.name)

/-- The lookup table for a collector kind. -/
def tableOf (s : RegState) : MetricType → List (String × Collector)
  | .gauge => s.registeredGauges
  | .counter => s.registeredCounters

/-- How many applications the collector registered under a name of a
kind has received (0 if there is none). -/
def appsCount (s : RegState) (k : MetricType) (n : String) : Nat :=
  match (tableOf s k).lookup n with
  | some c => c.apps.length
  | none => 0

/-- How many metrics of the list carry the given name and kind. -/
def metricCount (ms : List metric) (k : MetricType) (n : String) : Nat :=
  (ms.filter (fun m => m.name == n && m.metricType == k)).length

/-- The final heap a registration outcome exposes, if it returns one. -/
def heapAfter : RegOutcome → Option (List LabelMap)
  | .ok s => some s.heap
  | _ => none

/-- Invariant of the registration loop: the successful `Register` calls
and the registry's descriptors carry the same names in the same order, and
those names are distinct (a `Register` call succeeds only for a name not
yet in the registry). -/
def WF (s : RegState) : Prop :=
  s.regEvents.map Prod.fst = s.registryDescs.map Prod.fst
  ∧ (s.registryDescs.map Prod.fst).Nodup

/-- The empty registration state over a given heap. -/
def initState (heap : List LabelMap) : RegState :=
  { heap := heap, registeredGauges := [], registeredCounters := [],
    registryDescs := [], regEvents := [] }

/-- A gauge definition whose label map lives in heap cell 0. -/
def c8def : MetricDef :=
  { name := "g", help := "hh", labelsRef := some 0, address := 40001,
    dataType := .int16, bitOffset := none, metricType := .gauge }

/-- The metric `scrapeMetric` assembles from `c8def` and the register
bytes `00 05`: it references the definition's label map cell. -/
def c8metric : metric :=
  { name := "g", help := "hh", labelsRef := some 0, value := .int 5,
    metricType := .gauge }

/-- A counter metric carrying the negative value -1. -/
def c4metric : metric :=
  { name := "c", help := "h", labelsRef := none, value := .int (-1),
    metricType := .counter }

/-- Three metrics: two gauges sharing the name `a`, one counter named
`b`. -/
def c9ms : List metric :=
  [{ name := "a", help := "h", labelsRef := none, value := .int 1, metricType := .gauge },
   { name := "a", help := "h", labelsRef := none, value := .int 2, metricType := .gauge },
   { name := "b", help := "h", labelsRef := none, value := .int 3, metricType := .counter }]

/-- The state registering `c9ms` reaches: one gauge collector holding
both applications for `a`, one counter collector for `b`, two registry
entries. -/
def c9state : RegState :=
  { heap := [],
    registeredGauges :=
      [("a", { name := "a", help := "h", schema := ["module"],
               apps := [([("module", "mod")], .int 1), ([("module", "mod")], .int 2)] })],
    registeredCounters :=
      [("b", { name := "b", help := "h", schema := ["module"],
               apps := [([("module", "mod")], .int 3)] })],
    registryDescs := [("a", ["module"]), ("b", ["module"])],
    regEvents := [("a", .gauge), ("b", .counter)] }

/-- Both branches of the Bool bit test are numeric values, not errors. -/
lemma isInsufficient_ite (c : Prop) [Decidable c] (a b : ModbusValue) :
    isInsufficient (if c then PResult.ok a else PResult.ok b) = false := by
  split <;> rfl

lemma isInsufficient_ok (v : ModbusValue) : isInsufficient (.ok v) = false := rfl

lemma isInsufficient_panicked (m : String) : isInsufficient (.panicked m) = false := rfl

lemma isInsufficient_missing : isInsufficient (.err .missingBitOffset) = false := rfl

/-- The guarded 16-bit bit test of the Bool branch agrees with `Nat.testBit`
for any word below `2 ^ 16` and any offset below `2 ^ 16`: below offset 16
the mask is the tested power of two, from offset 16 on the truncated mask
and the tested bit are both zero. -/
lemma and_mask_pos_iff (data off : Nat) (hdata : data < 65536) (hoff : off < 65536) :
    (data &&& ((1 <<< (off % 65536)) % 65536) > 0) ↔ Nat.testBit data off = true := by
  rw [Nat.mod_eq_of_lt hoff, Nat.shiftLeft_eq, one_mul]
  by_cases h16 : off < 16
  · have hlt : (2 : ℕ) ^ off < 65536 := by
      calc (2 : ℕ) ^ off ≤ 2 ^ 15 := Nat.pow_le_pow_right (by norm_num) (by omega)
        _ < 65536 := by norm_num
    rw [Nat.mod_eq_of_lt hlt, Nat.and_two_pow]
    cases htb : Nat.testBit data off <;> simp [htb, Nat.pos_pow_of_pos]
  · have hdvd : (65536 : ℕ) ∣ 2 ^ off := by
      have h : (2 : ℕ) ^ 16 = 65536 := by norm_num
      rw [← h]
      exact pow_dvd_pow 2 (by omega)
    rw [Nat.mod_eq_zero_of_dvd hdvd, Nat.and_zero]
    have htb : Nat.testBit data off = false := by
      refine Nat.testBit_eq_false_of_lt (lt_of_lt_of_le hdata ?_)
      calc (65536 : ℕ) = 2 ^ 16 := by norm_num
        _ ≤ 2 ^ off := Nat.pow_le_pow_right (by norm_num) (by omega)
    simp [htb]

/-- C3: for each of the six data types, a buffer shorter than the type's
minimum byte length (2, 4, 2, 4, 2, 2 bytes) decodes to the typed
insufficient-registers error (carrying the register count the source
reports, which is half the byte minimum, and the actual byte count) and
hence to no numeric value; a buffer of at least the minimum length never
produces an insufficient-registers error. -/
theorem insufficient_registers_iff (d : MetricDef) (data : List Nat) :
    (data.length < minBytes d.dataType →
      parseModbusData d data =
        .err (.insufficientRegisters (minBytes d.dataType / 2) data.length))
    ∧ (minBytes d.dataType ≤ data.length →
      isInsufficient (parseModbusData d data) = false) := by
  obtain ⟨nm, hp, lr, addr, dt, off, mt⟩ := d
  cases dt <;>
    rcases data with _ | ⟨b0, _ | ⟨b1, _ | ⟨b2, _ | ⟨b3, rest⟩⟩⟩⟩ <;>
    cases off <;>
    simp +arith [parseModbusData, minBytes, uint16BE, uint32BE,
      isInsufficient_ite, isInsufficient_ok, isInsufficient_panicked, isInsufficient_missing]

/-- C3 witness: the Int32 length check rejects a 3-byte buffer with the
typed error, and accepts a 4-byte buffer. -/
theorem insufficient_registers_iff_witness :
    parseModbusData (defWith .int32 none) [7, 7, 7] = .err (.insufficientRegisters 2 3)
    ∧ isInsufficient (parseModbusData (defWith .int32 none) [7, 7, 7, 7]) = false := by
  constructor
  · exact (insufficient_registers_iff (defWith .int32 none) [7, 7, 7]).1 (by decide)
  · exact (insufficient_registers_iff (defWith .int32 none) [7, 7, 7, 7]).2 (by decide)

/-- C1: code behavior at the inputs on which the claim fails. The Int32
branch of `parseModbusData` reads only the first two bytes (via the 16-bit
big-endian read) and treats them as unsigned, so the buffer
`00 00 00 01` — whose big-endian signed 32-bit value is 1 — decodes to 0;
the UInt16 branch reads four bytes via the 32-bit big-endian read, so
`00 00 00 01` — whose first two bytes form the 16-bit word 0 — decodes
to 1, and a 2-byte buffer makes that read panic on its bounds check. -/
theorem int32_uint16_decode_swapped :
    parseModbusData (defWith .int32 none) [0, 0, 0, 1] = .ok (.int 0)
    ∧ parseModbusData (defWith .uint16 none) [0, 0, 0, 1] = .ok (.int 1)
    ∧ parseModbusData (defWith .uint16 none) [0, 1] = .panicked "index out of range" := by
  decide

/-- C2: code behavior at the input on which the claim fails. The Float16
branch of `parseModbusData` passes its length check on a 2-byte buffer and
then executes `panic("implement")` — an uncontrolled abort, not a normal
error return. -/
theorem float16_decode_panics :
    parseModbusData (defWith .float16 none) [0, 0] = .panicked "implement" := by
  decide

/-- C7: on a buffer of at least two bytes, a boolean definition with a
present bit offset (below `2 ^ 16`; the bit-offset field of the external
config record is modelled as an arbitrary natural) decodes the first two
bytes as a big-endian 16-bit word and yields 1 exactly when the bit at the
offset (0 = least significant) is set, 0 otherwise; with an absent bit
offset it fails with the missing-bit-offset configuration error. -/
theorem bool_decode_testBit (d : MetricDef) (b0 b1 : Nat) (rest : List Nat) (off : Nat)
    (hd : d.dataType = .bool) (hb0 : b0 < 256) (hb1 : b1 < 256) (hoff : off < 65536) :
    (d.bitOffset = some off →
      parseModbusData d (b0 :: b1 :: rest) =
        .ok (.int (if Nat.testBit (b0 * 256 + b1) off then 1 else 0)))
    ∧ (d.bitOffset = none →
      parseModbusData d (b0 :: b1 :: rest) = .err .missingBitOffset) := by
  constructor
  · intro hsome
    have hmask := and_mask_pos_iff (b0 * 256 + b1) off (by omega) hoff
    simp only [parseModbusData, hd, hsome, uint16BE, List.length_cons]
    rw [if_neg (by omega)]
    by_cases htb : Nat.testBit (b0 * 256 + b1) off = true
    · rw [if_pos (hmask.mpr htb), htb]
      simp
    · rw [if_neg (fun hc => htb (hmask.mp hc)), if_neg (by simpa using htb)]
  · intro hnone
    simp only [parseModbusData, hd, hnone, List.length_cons]
    rw [if_neg (by omega)]

/-- C7 witness: register bytes `0x00 0x02` decode to 1 at bit offset 1 and
to 0 at bit offset 0, and an absent offset is a configuration error. -/
theorem bool_decode_testBit_witness :
    parseModbusData (defWith .bool (some 1)) [0, 2] = .ok (.int 1)
    ∧ parseModbusData (defWith .bool (some 0)) [0, 2] = .ok (.int 0)
    ∧ parseModbusData (defWith .bool none) [0, 2] = .err .missingBitOffset := by
  refine ⟨?_, ?_, ?_⟩
  · exact ((bool_decode_testBit (defWith .bool (some 1)) 0 2 [] 1 rfl (by decide) (by decide)
      (by decide)).1 rfl).trans (by decide)
  · exact ((bool_decode_testBit (defWith .bool (some 0)) 0 2 [] 0 rfl (by decide) (by decide)
      (by decide)).1 rfl).trans (by decide)
  · exact (bool_decode_testBit (defWith .bool none) 0 2 [] 0 rfl (by decide) (by decide)
      (by decide)).2 rfl

/-- C10: a boolean definition whose bit offset is at least 16 (and below
`2 ^ 16`, where the Go `uint16` conversion of the offset is the identity)
decodes any buffer of at least two bytes to 0 with no error: the uint16
test mask `1 << offset` truncates to zero, so the bit test never fires and
the out-of-range offset is not rejected. -/
theorem bool_decode_large_offset_zero (d : MetricDef) (b0 b1 : Nat) (rest : List Nat)
    (off : Nat) (hd : d.dataType = .bool) (hoff : d.bitOffset = some off)
    (h16 : 16 ≤ off) (hub : off < 65536) :
    parseModbusData d (b0 :: b1 :: rest) = .ok (.int 0) := by
  have hmask : (1 <<< (off % 65536)) % 65536 = 0 := by
    rw [Nat.mod_eq_of_lt hub, Nat.shiftLeft_eq, one_mul]
    refine Nat.mod_eq_zero_of_dvd ?_
    have h : (2 : ℕ) ^ 16 = 65536 := by norm_num
    rw [← h]
    exact pow_dvd_pow 2 h16
  simp only [parseModbusData, hd, hoff, uint16BE, List.length_cons]
  rw [if_neg (by omega), hmask, Nat.and_zero]
  simp

/-- C10 witness: offset 16 on an all-ones register word decodes to 0. -/
theorem bool_decode_large_offset_zero_witness :
    parseModbusData (defWith .bool (some 16)) [255, 255] = .ok (.int 0) :=
  bool_decode_large_offset_zero (defWith .bool (some 16)) 255 255 [] 16 rfl rfl
    (by decide) (by decide)

lemma dispatchF_digit0 (c : Client) (a : Nat) (h : a / 10000 = 0) :
    dispatchF c a = some c.readCoils := by
  simp [dispatchF, h]

lemma dispatchF_digit1 (c : Client) (a : Nat) (h : a / 10000 = 1) :
    dispatchF c a = some c.readDiscreteInputs := by
  simp [dispatchF, h]

lemma dispatchF_digit3 (c : Client) (a : Nat) (h : a / 10000 = 3) :
    dispatchF c a = some c.readInputRegisters := by
  simp [dispatchF, h]

lemma dispatchF_digit4 (c : Client) (a : Nat) (h : a / 10000 = 4) :
    dispatchF c a = some c.readHoldingRegisters := by
  simp [dispatchF, h]

lemma dispatchF_other (c : Client) (a : Nat) (h0 : a / 10000 ≠ 0) (h1 : a / 10000 ≠ 1)
    (h3 : a / 10000 ≠ 3) (h4 : a / 10000 ≠ 4) : dispatchF c a = none := by
  unfold dispatchF
  split <;> simp_all

/-- C6: with the probing client, whose reads fail with an error recording
the operation and the address it received, every definition whose
ten-thousands digit is 0 reaches the coil read, 1 the discrete-input
read, 3 the input-register read, 4 the holding-register read — each at
the definition's address modulo 10000 — and every other digit yields the
address-range error naming the metric and address. -/
theorem dispatch_by_ten_thousands_digit (d : MetricDef) :
    (d.address / 10000 = 0 → scrapeMetrics [d] probeClient =
      .err (.metricFailure d.name d.address
        (.readErr ("coils " ++ toString (d.address % 10000)))))
    ∧ (d.address / 10000 = 1 → scrapeMetrics [d] probeClient =
      .err (.metricFailure d.name d.address
        (.readErr ("discrete " ++ toString (d.address % 10000)))))
    ∧ (d.address / 10000 = 3 → scrapeMetrics [d] probeClient =
      .err (.metricFailure d.name d.address
        (.readErr ("input " ++ toString (d.address % 10000)))))
    ∧ (d.address / 10000 = 4 → scrapeMetrics [d] probeClient =
      .err (.metricFailure d.name d.address
        (.readErr ("holding " ++ toString (d.address % 10000)))))
    ∧ (d.address / 10000 ≠ 0 → d.address / 10000 ≠ 1 → d.address / 10000 ≠ 3 →
      d.address / 10000 ≠ 4 →
      scrapeMetrics [d] probeClient = .err (.addressRange d.name d.address)) := by
  refine ⟨fun h => ?_, fun h => ?_, fun h => ?_, fun h => ?_, fun h0 h1 h3 h4 => ?_⟩
  · rw [scrapeMetrics, if_neg (by simp)]
    simp only [scrapeMetricsGo, dispatchF_digit0 probeClient d.address h]
    simp [scrapeMetric, probeClient]
  · rw [scrapeMetrics, if_neg (by simp)]
    simp only [scrapeMetricsGo, dispatchF_digit1 probeClient d.address h]
    simp [scrapeMetric, probeClient]
  · rw [scrapeMetrics, if_neg (by simp)]
    simp only [scrapeMetricsGo, dispatchF_digit3 probeClient d.address h]
    simp [scrapeMetric, probeClient]
  · rw [scrapeMetrics, if_neg (by simp)]
    simp only [scrapeMetricsGo, dispatchF_digit4 probeClient d.address h]
    simp [scrapeMetric, probeClient]
  · rw [scrapeMetrics, if_neg (by simp)]
    simp only [scrapeMetricsGo, dispatchF_other probeClient d.address h0 h1 h3 h4]

/-- C6 witness: address 40001 reaches the holding-register read at
resolved address 1; address 50000 fails with the address-range error;
addresses 3, 10002 and 30007 reach the coil, discrete-input and
input-register reads at their addresses modulo 10000. -/
theorem dispatch_by_ten_thousands_digit_witness :
    scrapeMetrics [defAt 40001] probeClient =
      .err (.metricFailure "m" 40001 (.readErr ("holding " ++ toString 1)))
    ∧ scrapeMetrics [defAt 50000] probeClient = .err (.addressRange "m" 50000)
    ∧ scrapeMetrics [defAt 3] probeClient =
      .err (.metricFailure "m" 3 (.readErr ("coils " ++ toString 3)))
    ∧ scrapeMetrics [defAt 10002] probeClient =
      .err (.metricFailure "m" 10002 (.readErr ("discrete " ++ toString 2)))
    ∧ scrapeMetrics [defAt 30007] probeClient =
      .err (.metricFailure "m" 30007 (.readErr ("input " ++ toString 7))) := by
  refine ⟨?_, ?_, ?_, ?_, ?_⟩
  · exact (dispatch_by_ten_thousands_digit (defAt 40001)).2.2.2.1 (by decide)
  · exact (dispatch_by_ten_thousands_digit (defAt 50000)).2.2.2.2
      (by decide) (by decide) (by decide) (by decide)
  · exact (dispatch_by_ten_thousands_digit (defAt 3)).1 (by decide)
  · exact (dispatch_by_ten_thousands_digit (defAt 10002)).2.1 (by decide)
  · exact (dispatch_by_ten_thousands_digit (defAt 30007)).2.2.1 (by decide)

/-- A successfully scraped metric copies name, help, label reference and
kind from its definition. -/
lemma scrapeMetric_ok_fields (d : MetricDef) (f : Nat → Nat → Except String (List Nat))
    (m : metric) (h : scrapeMetric d f = .ok m) :
    m.name = d.name ∧ m.help = d.help ∧ m.labelsRef = d.labelsRef
    ∧ m.metricType = d.metricType := by
  unfold scrapeMetric at h
  split at h
  · exact absurd h (by simp)
  · split at h
    · exact absurd h (by simp)
    · exact absurd h (by simp)
    · cases h
      simp

/-- A completed `scrapeMetrics` loop returns the accumulated metrics
followed by one metric per remaining definition, in order, each copying
its definition's fields. -/
lemma scrapeMetricsGo_ok_maps (c : Client) (defs : List MetricDef) :
    ∀ (acc ms : List metric), scrapeMetricsGo c defs acc = .ok ms →
      ms.map metric.name = acc.map metric.name ++ defs.map MetricDef.name
      ∧ ms.map metric.help = acc.map metric.help ++ defs.map MetricDef.help
      ∧ ms.map metric.labelsRef = acc.map metric.labelsRef ++ defs.map MetricDef.labelsRef
      ∧ ms.map metric.metricType
        = acc.map metric.metricType ++ defs.map MetricDef.metricType := by
  induction defs with
  | nil =>
      intro acc ms h
      unfold scrapeMetricsGo at h
      cases h
      simp
  | cons d rest ih =>
      intro acc ms h
      unfold scrapeMetricsGo at h
      split at h
      · exact absurd h (by simp)
      · split at h
        · exact absurd h (by simp)
        · exact absurd h (by simp)
        · rename_i x1 f hdis x2 m hsm
          obtain ⟨h1, h2, h3, h4⟩ := ih (acc ++ [m]) ms h
          obtain ⟨f1, f2, f3, f4⟩ := scrapeMetric_ok_fields d f m hsm
          simp [h1, h2, h3, h4, f1, f2, f3, f4]

/-- A `scrapeMetrics` loop that returns an error stopped at some
remaining definition: the error carries that definition's name and
address, and the loop restricted to the definitions before it
completes. -/
lemma scrapeMetricsGo_err (c : Client) (defs : List MetricDef) :
    ∀ (acc : List metric) (e : SError), scrapeMetricsGo c defs acc = .err e →
      ∃ i, ∃ hi : i < defs.length,
        e.errName = (defs.get ⟨i, hi⟩).name
        ∧ e.errAddress = (defs.get ⟨i, hi⟩).address
        ∧ ∃ pms, scrapeMetricsGo c (defs.take i) acc = .ok pms := by
  induction defs with
  | nil =>
      intro acc e h
      exact absurd h (by simp [scrapeMetricsGo])
  | cons d rest ih =>
      intro acc e h
      unfold scrapeMetricsGo at h
      split at h
      · cases h
        exact ⟨0, by simp, by simp [SError.errName], by simp [SError.errAddress],
          acc, by simp [scrapeMetricsGo]⟩
      · split at h
        · cases h
          exact ⟨0, by simp, by simp [SError.errName], by simp [SError.errAddress],
            acc, by simp [scrapeMetricsGo]⟩
        · exact absurd h (by simp)
        · rename_i x1 f hdis x2 m hsm
          obtain ⟨i, hi, hn, ha, pms, hp⟩ := ih (acc ++ [m]) e h
          refine ⟨i + 1, by simpa using Nat.succ_lt_succ hi, by simpa using hn,
            by simpa using ha, pms, ?_⟩
          simp only [List.take_succ_cons, scrapeMetricsGo, hdis, hsm]
          exact hp

/-- C5 counterexample: with a Float16 definition and a client returning
four bytes, `scrapeMetrics` neither returns a metric collection nor an
error — the decode panic propagates, so the claimed dichotomy
(full collection or error with empty list) fails. -/
theorem scrape_panics_on_float16 :
    scrapeMetrics [defWith .float16 none] (constClient [0, 0, 0, 0])
      = .panicked "implement" := by
  decide

/-- C5 (amended): whenever `scrapeMetrics` terminates normally it either
returns exactly one assembled metric per definition, in definition order
(each copying its definition's name, help, labels and kind), or
short-circuits at a failing definition — the definitions before it
succeed — returning an error naming that definition's name and address
together with the empty metric list; but a decode panic (the
unimplemented Float16, or a UInt16 decode of a 2- or 3-byte read result)
propagates as a panic instead of an error return. -/
theorem scrapeMetrics_all_or_error (defs : List MetricDef) (c : Client)
    (ms : List metric) (e : SError) :
    (scrapeMetrics defs c = .ok ms →
      ms.map metric.name = defs.map MetricDef.name
      ∧ ms.map metric.help = defs.map MetricDef.help
      ∧ ms.map metric.labelsRef = defs.map MetricDef.labelsRef
      ∧ ms.map metric.metricType = defs.map MetricDef.metricType)
    ∧ (scrapeMetrics defs c = .err e →
      returnedMetrics (scrapeMetrics defs c) = []
      ∧ ∃ i, ∃ hi : i < defs.length,
          e.errName = (defs.get ⟨i, hi⟩).name
          ∧ e.errAddress = (defs.get ⟨i, hi⟩).address
          ∧ ∃ pms, scrapeMetrics (defs.take i) c = .ok pms) := by
  constructor
  · intro h
    unfold scrapeMetrics at h
    split at h
    · rename_i hlen
      cases h
      have hdefs : defs = [] := List.length_eq_zero.mp hlen
      subst hdefs
      simp
    · simpa using scrapeMetricsGo_ok_maps c defs [] ms h
  · intro h
    have hrm : returnedMetrics (scrapeMetrics defs c) = [] := by rw [h]; rfl
    refine ⟨hrm, ?_⟩
    unfold scrapeMetrics at h
    split at h
    · exact absurd h (by simp)
    · obtain ⟨i, hi, hn, ha, pms, hp⟩ := scrapeMetricsGo_err c defs [] e h
      refine ⟨i, hi, hn, ha, pms, ?_⟩
      unfold scrapeMetrics
      split
      · rename_i hlen
        have htake : defs.take i = [] := List.length_eq_zero.mp hlen
        rw [htake] at hp
        simp [scrapeMetricsGo] at hp
        simp [hp]
      · exact hp

/-- C5 witness: scraping the two-definition module against the constant
client yields exactly the two expected assembled metrics, one per
definition in order. -/
theorem scrapeMetrics_all_or_error_witness :
    c5ms.map metric.name = c5defs.map MetricDef.name
    ∧ c5ms.map metric.help = c5defs.map MetricDef.help
    ∧ c5ms.map metric.labelsRef = c5defs.map MetricDef.labelsRef
    ∧ c5ms.map metric.metricType = c5defs.map MetricDef.metricType :=
  (scrapeMetrics_all_or_error c5defs c5client c5ms (.addressRange "x" 0)).1 (by decide)

/-- C8: code behavior at the input on which the claim fails. The metric
assembled from `c8def` shares the definition's label map reference
(heap cell 0); `registerMetrics` then writes the module label through
that reference, so after registration the cell the definition references
holds `foo=bar, module=mod1` instead of its pre-scrape value `foo=bar` —
the definition's label mapping is mutated, and a later scrape of the same
configuration observes the injected key. -/
theorem labels_map_mutated_by_register :
    scrapeMetric c8def ((constClient [0, 5]).readHoldingRegisters) = .ok c8metric
    ∧ heapAfter (registerMetrics "mod1" [c8metric] [[("foo", "bar")]])
      = some [[("foo", "bar"), ("module", "mod1")]]
    ∧ [[("foo", "bar"), ("module", "mod1")]] ≠ [[("foo", "bar")]] := by
  decide

/-- C4: a counter metric whose decoded value is negative under the Go
float64 order, reached with its prometheus `Add` call enabled (its
collector exists with matching label schema, or no descriptor blocks
creating it), makes the registration loop return — not panic — the error
naming the metric's name, kind, value and module-injected labels: the
negative-value panic raised inside the metrics library is recovered at
the adapter boundary. The metric may sit at any position: `s` is the
state after the preceding metrics. -/
theorem counter_negative_value_trapped (moduleName : String) (m : metric)
    (rest : List metric) (s : RegState)
    (hk : m.metricType = .counter)
    (hneg : valueIsNeg m.value = true)
    (hready : counterApplyReady moduleName s m = true) :
    registerMetricsGo moduleName (m :: rest) s =
      .err (.counterValue m.name m.metricType m.value
        (resolveLabels s.heap m.labelsRef moduleName).2) := by
  have hready' := hready
  unfold counterApplyReady at hready'
  cases hcl : s.registeredCounters.lookup m.name with
  | some c =>
      rw [hcl] at hready'
      simp [registerMetricsGo, registerOne, hk, hcl, hready', hneg]
  | none =>
      rw [hcl] at hready'
      have hdesc : hasDesc s.registryDescs m.name = false := by
        simpa using hready'
      simp [registerMetricsGo, registerOne, hk, hcl, hdesc, hneg]

/-- C4 witness: the single counter metric with value -1 in a fresh
registration state is trapped into the typed error. -/
theorem counter_negative_value_trapped_witness :
    counterApplyReady "mod" (initState []) c4metric = true
    ∧ registerMetricsGo "mod" [c4metric] (initState []) =
      .err (.counterValue "c" .counter (.int (-1)) [("module", "mod")]) := by
  constructor
  · decide
  · exact counter_negative_value_trapped "mod" c4metric [] (initState [])
      rfl (by decide) (by decide)

lemma lookup_updateAssoc_self (t : List (String × Collector)) (n : String)
    (c c₀ : Collector) (h : t.lookup n = some c₀) :
    (updateAssoc t n c).lookup n = some c := by
  induction t with
  | nil => simp [List.lookup] at h
  | cons p rest ih =>
      obtain ⟨k, v⟩ := p
      by_cases hk : k = n
      · subst hk
        simp [updateAssoc, List.lookup]
      · have hkn : (k == n) = false := beq_eq_false_iff_ne.mpr hk
        have hnk : (n == k) = false := beq_eq_false_iff_ne.mpr (Ne.symm hk)
        simp only [updateAssoc, hkn, List.lookup, hnk, if_false, Bool.false_eq_true,
          ite_false] at h ⊢
        exact ih h

lemma lookup_updateAssoc_ne (t : List (String × Collector)) (n n' : String)
    (c : Collector) (h : n' ≠ n) :
    (updateAssoc t n c).lookup n' = t.lookup n' := by
  induction t with
  | nil => simp [updateAssoc]
  | cons p rest ih =>
      obtain ⟨k, v⟩ := p
      by_cases hk : k = n
      · subst hk
        have hn'k : (n' == k) = false := beq_eq_false_iff_ne.mpr h
        simp [updateAssoc, List.lookup, hn'k]
      · have hkn : (k == n) = false := beq_eq_false_iff_ne.mpr hk
        by_cases hk' : n' = k
        · subst hk'
          simp [updateAssoc, hkn, List.lookup]
        · have hn'k : (n' == k) = false := beq_eq_false_iff_ne.mpr hk'
          simp [updateAssoc, hkn, List.lookup, hn'k, ih]

lemma lookup_append_single_self (t : List (String × Collector)) (a : String)
    (c : Collector) (h : t.lookup a = none) : (t ++ [(a, c)]).lookup a = some c := by
  induction t with
  | nil => simp [List.lookup]
  | cons p rest ih =>
      obtain ⟨k, v⟩ := p
      by_cases hk : a = k
      · subst hk
        simp [List.lookup] at h
      · have hak : (a == k) = false := beq_eq_false_iff_ne.mpr hk
        simp only [List.cons_append, List.lookup, hak] at h ⊢
        exact ih h

lemma lookup_append_single_ne (t : List (String × Collector)) (a : String)
    (c : Collector) (n : String) (h : n ≠ a) :
    (t ++ [(a, c)]).lookup n = t.lookup n := by
  induction t with
  | nil =>
      have hna : (n == a) = false := beq_eq_false_iff_ne.mpr h
      simp [List.lookup, hna]
  | cons p rest ih =>
      obtain ⟨k, v⟩ := p
      by_cases hk : n = k
      · subst hk
        simp [List.lookup]
      · have hnk : (n == k) = false := beq_eq_false_iff_ne.mpr hk
        simp [List.lookup, hnk, ih]

lemma hasDesc_false_iff (descs : List (String × List String)) (n : String) :
    hasDesc descs n = false ↔ n ∉ descs.map Prod.fst := by
  induction descs with
  | nil => simp [hasDesc]
  | cons p rest ih =>
      obtain ⟨k, v⟩ := p
      by_cases hk : k = n <;> simp [hasDesc, hk] at ih ⊢ <;> simp [ih, Ne.symm hk]

lemma metricCount_cons (m : metric) (ms : List metric) (k : MetricType) (n : String) :
    metricCount (m :: ms) k n
      = (if m.name == n && m.metricType == k then 1 else 0) + metricCount ms k n := by
  simp only [metricCount, List.filter_cons]
  split <;> simp +arith

lemma registerOne_stop_not_ok (moduleName : String) (m : metric) (s s₀ : RegState) :
    registerOne moduleName m s ≠ .stop (.ok s₀) := by
  intro h
  unfold registerOne at h
  split at h <;> split at h <;>
    first
      | (split at h <;>
          first
            | (split at h <;> simp_all)
            | simp_all)
      | simp_all

/-- One continued registration step preserves the registry invariant and
adds exactly one application to the collector keyed by the metric's name
and kind, leaving every other count unchanged. -/
lemma registerOne_cont_props (moduleName : String) (m : metric) (s s1 : RegState)
    (hwf : WF s) (h : registerOne moduleName m s = .cont s1) :
    WF s1 ∧ ∀ (k : MetricType) (n : String),
      appsCount s1 k n
        = appsCount s k n + (if m.name == n && m.metricType == k then 1 else 0) := by
  unfold registerOne at h
  split at h
  · -- gauge
    rename_i x hmt
    split at h
    · -- collector found
      rename_i y collector heq
      split at h
      · -- schema matches: applied
        cases h
        refine ⟨by simpa [WF] using hwf, fun k n => ?_⟩
        cases k
        · by_cases hn : m.name = n
          · subst hn
            simp [appsCount, tableOf, lookup_updateAssoc_self _ _ _ collector heq, heq,
              appliedCollector, hmt]
          · simp [appsCount, tableOf,
              lookup_updateAssoc_ne _ _ _ _ (fun hh => hn hh.symm), hn]
        · simp [appsCount, tableOf, hmt]
      · exact absurd h (by simp)
    · -- collector created
      rename_i y heq
      split at h
      · exact absurd h (by simp)
      · rename_i hdesc
        have hdesc' : hasDesc s.registryDescs m.name = false := by
          simpa using hdesc
        cases h
        constructor
        · constructor
          · simp [hwf.1]
          · simp [List.nodup_append, hwf.2, (hasDesc_false_iff _ _).mp hdesc']
        · intro k n
          cases k
          · by_cases hn : m.name = n
            · subst hn
              simp [appsCount, tableOf, lookup_append_single_self _ _ _ heq, heq,
                freshCollector, hmt]
            · simp [appsCount, tableOf,
                lookup_append_single_ne _ _ _ _ (fun hh => hn hh.symm), hn]
          · simp [appsCount, tableOf, hmt]
  · -- counter
    rename_i x hmt
    split at h
    · rename_i y collector heq
      split at h
      · split at h
        · exact absurd h (by simp)
        · cases h
          refine ⟨by simpa [WF] using hwf, fun k n => ?_⟩
          cases k
          · simp [appsCount, tableOf, hmt]
          · by_cases hn : m.name = n
            · subst hn
              simp [appsCount, tableOf, lookup_updateAssoc_self _ _ _ collector heq, heq,
                appliedCollector, hmt]
            · simp [appsCount, tableOf,
                lookup_updateAssoc_ne _ _ _ _ (fun hh => hn hh.symm), hn]
      · exact absurd h (by simp)
    · rename_i y heq
      split at h
      · exact absurd h (by simp)
      · rename_i hdesc
        have hdesc' : hasDesc s.registryDescs m.name = false := by
          simpa using hdesc
        split at h
        · exact absurd h (by simp)
        · cases h
          constructor
          · constructor
            · simp [hwf.1]
            · simp [List.nodup_append, hwf.2, (hasDesc_false_iff _ _).mp hdesc']
          · intro k n
            cases k
            · simp [appsCount, tableOf, hmt]
            · by_cases hn : m.name = n
              · subst hn
                simp [appsCount, tableOf, lookup_append_single_self _ _ _ heq, heq,
                  freshCollector, hmt]
              · simp [appsCount, tableOf,
                  lookup_append_single_ne _ _ _ _ (fun hh => hn hh.symm), hn]

/-- A completed registration loop preserves the registry invariant and
adds, per (name, kind), exactly as many applications as there are metrics
with that name and kind among those processed. -/
lemma registerMetricsGo_ok_invariant (moduleName : String) (ms : List metric) :
    ∀ (s s' : RegState), WF s → registerMetricsGo moduleName ms s = .ok s' →
      WF s' ∧ ∀ (k : MetricType) (n : String),
        appsCount s' k n = appsCount s k n + metricCount ms k n := by
  induction ms with
  | nil =>
      intro s s' hwf h
      unfold registerMetricsGo at h
      cases h
      exact ⟨hwf, fun k n => by simp [metricCount]⟩
  | cons m rest ih =>
      intro s s' hwf h
      unfold registerMetricsGo at h
      split at h
      · rename_i o heq
        subst h
        exact absurd heq (registerOne_stop_not_ok moduleName m s s')
      · rename_i s1 heq
        obtain ⟨hwf1, hcnt1⟩ := registerOne_cont_props moduleName m s s1 hwf heq
        obtain ⟨hwf', hcnt'⟩ := ih s1 s' hwf1 h
        refine ⟨hwf', fun k n => ?_⟩
        rw [hcnt' k n, hcnt1 k n, metricCount_cons, Nat.add_assoc]

/-- C9: in a successful registration of a metrics list into a fresh
scrape-local registry, the successful `Register` calls are pairwise
distinct in (name, kind) — at most one collector is created and
registered per (name, kind), at the first metric carrying it — and the
collector holding a (name, kind) has received exactly one application
(gauge `Set` or counter `Add`) per metric of the list with that name and
kind: later metrics sharing the pair are applied to the same collector
rather than creating a second one. -/
theorem one_collector_per_name_kind (moduleName : String) (ms : List metric)
    (heap : List LabelMap) (s : RegState) (k : MetricType) (n : String)
    (h : registerMetrics moduleName ms heap = .ok s) :
    s.regEvents.Nodup ∧ appsCount s k n = metricCount ms k n := by
  have hinit : WF (initState heap) := ⟨rfl, List.nodup_nil⟩
  obtain ⟨hwf, hcnt⟩ :=
    registerMetricsGo_ok_invariant moduleName ms (initState heap) s hinit h
  refine ⟨List.Nodup.of_map Prod.fst (hwf.1 ▸ hwf.2), ?_⟩
  have hz : appsCount (initState heap) k n = 0 := by
    cases k <;> simp [appsCount, tableOf, initState, List.lookup]
  have := hcnt k n
  rw [hz, Nat.zero_add] at this
  exact this

/-- C9 witness: registering two gauges named `a` and one counter named
`b` registers each name once and leaves the single `a` collector with
two applications. -/
theorem one_collector_per_name_kind_witness :
    registerMetrics "mod" c9ms [] = .ok c9state
    ∧ (c9state.regEvents.Nodup
      ∧ appsCount c9state .gauge "a" = metricCount c9ms .gauge "a") := by
  refine ⟨by decide, ?_⟩
  exact one_collector_per_name_kind "mod" c9ms [] c9state .gauge "a" (by decide)

end ModbusExporter
